import Mathlib

/-!
Verification of the feedback-scheduling core of the tgbotecsmart Telegram bot.

The embedding models, from the Python sources:

* the data model of `database.py` (`User`, `Schedule` rows, plus the seeded
  default schedule of `init_schedule`),
* the evaluator `check_and_schedule_feedback_requests` of `database.py`
  (grace-window variant: a group is picked up iff the class ended between 0
  and 10 minutes ago; reads only, returns a boolean),
* the scheduling pass `check_and_schedule_feedback_requests` of `bot.py`
  (schedules an APScheduler `date` job at the class-end instant, deduplicated
  by the in-memory job id `feedback_request_<chat_id>_<date>`),
* the notifier wrappers `send_feedback_request_to_user` (`bot.py`) and
  `send_feedback_request` (`handlers/feedback.py`),
* the two date parsers `parse_date` (`utils.py` and `utils/helpers.py`).

Conventions: instants are integers counting seconds in the fixed Moscow zone
(the deployment uses the single zone `Europe/Moscow`, so zone conversions are
the identity); a calendar date is the floor-division of an instant by 86400,
the time of day its remainder, and the weekday index the date modulo 7
(Monday = 0, matching Python `datetime.weekday` up to the choice of epoch).
Times of day from the schedule table are seconds since midnight, so 18:00 is
64800 and 14:00 is 50400, and the 10-minute grace bound of `database.py`
(`0 <= time_diff <= 10` in minutes) is `0 <= diff <= 600` in seconds.
-/

def secondsPerDay : Int := 86400

/-- Calendar date (day index) of an instant, as Python `datetime.date()`. -/
def dateOf (t : Int) : Int := Int.fdiv t secondsPerDay

/-- Time of day of an instant, as Python `datetime.time()`: the instant minus
the midnight instant of its own calendar date. -/
def timeOfDay (t : Int) : Int := t - secondsPerDay * dateOf t

/-- Weekday index of an instant (Monday = 0), as `utils.get_weekday()`. -/
def weekdayOf (t : Int) : Int := Int.emod (dateOf t) 7

/-- Row of the `users` table (`database.py`, class `User`): the fields the
scheduling passes read.  `chat_id` doubles as the user identifier and the
notification address, as in the source. -/
structure User where
  chat_id : Int
  group_type : String
  start_date : Int
  is_active : Bool
deriving DecidableEq, Repr

/-- Row of the `schedules` table (`database.py`, class `Schedule`). -/
structure Schedule where
  group_type : String
  day_of_week : Int
  end_time : Int
deriving DecidableEq, Repr

/-- The relational store as read by the passes: the two tables. -/
structure Store where
  schedules : List Schedule
  users : List User
deriving DecidableEq, Repr

/-- `datetime.combine(now.date(), schedule.end_time)` (`bot.py` line 505 and,
on the same date, the subtrahend of `time_diff` in `database.py` line 383):
the class-end instant of a schedule entry on the calendar date of `now`. -/
def class_end_time (now : Int) (sch : Schedule) : Int :=
  secondsPerDay * dateOf now + sch.end_time

/-- Schedules matching the current weekday:
`session.query(Schedule).filter(Schedule.day_of_week == current_day)`
(both `database.py` line 363 and `bot.py` line 493). -/
def schedules_for_today (store : Store) (now : Int) : List Schedule :=
  store.schedules.filter (fun s => s.day_of_week == weekdayOf now)

/-- Operations issued against the store.  Reads are issued by the evaluator
passes, the write operations only by `init_schedule`. -/
inductive StoreOp where
  | countSchedules
  | readSchedules (day : Int)
  | readUsers (group : String)
  | addSchedule (sch : Schedule)
  | commit
deriving DecidableEq, Repr

def StoreOp.isRead : StoreOp → Bool
  | .countSchedules => true
  | .readSchedules _ => true
  | .readUsers _ => true
  | .addSchedule _ => false
  | .commit => false

/-- Effect of one store operation on the store: reads leave it unchanged,
`addSchedule` appends a row, `commit` is a persistence barrier with no
further logical effect. -/
def applyOp (store : Store) : StoreOp → Store
  | .addSchedule sch => ⟨store.schedules ++ [sch], store.users⟩
  | _ => store

def applyOps (store : Store) (ops : List StoreOp) : Store :=
  ops.foldl applyOp store

namespace Database

/-- The fixed default table seeded by `init_schedule` (`database.py` lines
122-127): `weekday` groups ending 18:00 (64800 s) for days 0-4, then the
`weekend` group ending 14:00 (50400 s) on day 5. -/
def default_schedule : List Schedule :=
  ((List.range 5).map (fun d => ⟨"weekday", (d : Int), 64800⟩)) ++
    [⟨"weekend", 5, 50400⟩]

/-- `init_schedule` (`database.py` lines 93-147), happy path: count the
schedule rows; if there are none, add the six default rows and commit,
otherwise change nothing.  Returns the Python return value, the store after
the call, and the operations issued. -/
def init_schedule (store : Store) : Bool × Store × List StoreOp :=
  if store.schedules.length = 0 then
    (true, ⟨store.schedules ++ default_schedule, store.users⟩,
      StoreOp.countSchedules :: (default_schedule.map StoreOp.addSchedule) ++ [StoreOp.commit])
  else
    (true, store, [StoreOp.countSchedules])

/-- `0 <= time_diff <= 10` (`database.py` line 386): the class of this
schedule entry ended between 0 and 10 minutes (600 s) before `now`.
`time_diff` is `(combine(date(now), time(now)) - combine(date(now), end_time))
.total_seconds() / 60`, i.e. the time of day of `now` minus the entry's end
time, in minutes; the bound in minutes is exactly the bound in seconds. -/
def grace_eligible (now : Int) (sch : Schedule) : Bool :=
  decide (0 ≤ timeOfDay now - sch.end_time) &&
    decide (timeOfDay now - sch.end_time ≤ 600)

/-- `session.query(User).filter(User.group_type == group_type,
User.is_active == True)` (`database.py` lines 390-394): the users the
evaluator selects for a group.  Note there is no start-date condition. -/
def users_in_group (store : Store) (group : String) : List User :=
  store.users.filter (fun u => u.group_type == group && u.is_active)

/-- The chat ids one schedule entry contributes to `users_to_notify`: the
entry's group members if the entry is inside the grace window, nothing
otherwise (`if not users: continue` appends nothing, like the empty list). -/
def schedule_batch (store : Store) (now : Int) (sch : Schedule) : List Int :=
  if grace_eligible now sch then
    (users_in_group store sch.group_type).map User.chat_id
  else []

/-- The local accumulator `users_to_notify` of
`database.py.check_and_schedule_feedback_requests` (lines 375-407) at the
point of return: the loop over today's schedules appends, for each entry
within the grace window, the chat ids of the group's active users. -/
def users_to_notify (store : Store) (now : Int) : List Int :=
  (schedules_for_today store now).foldl
    (fun acc sch => acc ++ schedule_batch store now sch) []

/-- How the store behaves during a pass: the session may fail to open
(`get_session` raises, `database.py` line 193), the schedule query or the
user queries may fail (`safe_execute_query` catches, logs and returns `None`,
lines 197-206), or everything is reachable. -/
inductive StoreAccess where
  | unreachable
  | failingSchedules
  | failingUsers (store : Store)
  | available (store : Store)

/-- Result of one evaluator pass: `ok` is the Python return value of
`check_and_schedule_feedback_requests`, `notified` the local
`users_to_notify` list when the function returns, `ops` the operations
issued against the store. -/
structure PassResult where
  ok : Bool
  notified : List Int
  ops : List StoreOp
deriving DecidableEq, Repr

/-- The store-operation trace of the schedule loop: one `readUsers` per
schedule entry inside the grace window (`database.py` lines 386-396). -/
def user_read_ops (store : Store) (now : Int) : List StoreOp :=
  (schedules_for_today store now).foldl
    (fun ops sch =>
      ops ++ (if grace_eligible now sch then [StoreOp.readUsers sch.group_type] else []))
    []

/-- `check_and_schedule_feedback_requests` (`database.py` lines 342-425).

* If `get_session()` raises (store unreachable) the outer `except` logs and
  returns `False`; nothing was read or written and `users_to_notify` was
  never built.
* If the schedule query fails, `safe_execute_query` returns `None`, the
  `if not schedules` branch returns `True` with no users collected.
* If the user queries fail, each `if not users: continue` skips, so the pass
  returns `True` with no users collected; one read per in-window entry was
  still attempted.
* Otherwise the pass reads today's schedules, accumulates `users_to_notify`
  over the in-window entries, and returns `True`.  (An empty schedule list
  returns `True` early, which coincides with the loop over no entries.)

The function issues no write operation in any branch. -/
def check_and_schedule_feedback_requests (a : StoreAccess) (now : Int) : PassResult :=
  match a with
  | .unreachable => ⟨false, [], []⟩
  | .failingSchedules => ⟨true, [], [StoreOp.readSchedules (weekdayOf now)]⟩
  | .failingUsers store =>
      ⟨true, [], StoreOp.readSchedules (weekdayOf now) :: user_read_ops store now⟩
  | .available store =>
      ⟨true, users_to_notify store now,
        StoreOp.readSchedules (weekdayOf now) :: user_read_ops store now⟩

end Database

/-- APScheduler job id `f"feedback_request_{user.chat_id}_{current_time.date()}"`
(`bot.py` line 516): the dedup key, built from the user identifier and the
calendar date. -/
def job_name (chat_id : Int) (date : Int) : String :=
  "feedback_request_" ++ toString chat_id ++ "_" ++ toString date

/-- A job held by the in-process scheduler (`scheduler.add_job(...,'date',
run_date=class_end_time, args=[user.chat_id], id=job_name)`, `bot.py`
lines 520-526). -/
structure Job where
  id : String
  run_date : Int
  chat_id : Int
deriving DecidableEq, Repr

/-- Number of scheduled jobs carrying a given dedup key. -/
def countKey (jobs : List Job) (k : String) : Nat :=
  (jobs.filter (fun j => j.id == k)).length

namespace Bot

/-- `session.query(User).filter(User.group_type == schedule.group_type,
User.is_active == True, User.start_date <= current_time)` (`bot.py` lines
497-501): the users the bot pass selects for one schedule entry. -/
def users_for (store : Store) (now : Int) (sch : Schedule) : List User :=
  store.users.filter
    (fun u => u.group_type == sch.group_type && u.is_active && decide (u.start_date ≤ now))

/-- The job the bot pass creates for a (user, schedule) pair (`bot.py`
lines 520-526). -/
def mkJob (now : Int) (sch : Schedule) (u : User) : Job :=
  ⟨job_name u.chat_id (dateOf now), class_end_time now sch, u.chat_id⟩

/-- Body of the inner user loop (`bot.py` lines 503-527): skip if the class
end already passed (`if current_time > class_end_time: continue`), skip if a
job with this dedup key is already scheduled, otherwise add the job. -/
def add_feedback_job (now : Int) (sch : Schedule) (jobs : List Job) (u : User) : List Job :=
  if now > class_end_time now sch then jobs
  else if job_name u.chat_id (dateOf now) ∈ jobs.map Job.id then jobs
  else jobs ++ [mkJob now sch u]

/-- `check_and_schedule_feedback_requests` (`bot.py` lines 486-529): for each
schedule entry of the current weekday and each selected user of its group,
run the add-if-absent step on the scheduler's job list. -/
def check_and_schedule_feedback_requests (store : Store) (now : Int) (jobs : List Job) :
    List Job :=
  (schedules_for_today store now).foldl
    (fun js sch => (users_for store now sch).foldl (add_feedback_job now sch) js) jobs

end Bot

/-- Outcome of one `bot.send_message` transport call: delivered, or the call
raises a transport exception. -/
inductive TransportOutcome where
  | delivered
  | failed
deriving DecidableEq, Repr

/-- Observable behaviour of a notifier wrapper: whether an exception escaped
to the caller, how many transport attempts were made, and whether a send
error was logged. -/
structure NotifyResult where
  raised : Bool
  attempts : Nat
  errorLogged : Bool
deriving DecidableEq, Repr

namespace Bot

/-- `send_feedback_request_to_user` (`bot.py` lines 532-543): one
`send_message` attempt inside `try`; on success an info line is logged, on
any exception the error is logged (`Ошибка при отправке запроса обратной
связи`) and swallowed.  There is no retry loop and the function does not
touch the scheduler's job list. -/
def send_feedback_request_to_user : TransportOutcome → NotifyResult
  | .delivered => ⟨false, 1, false⟩
  | .failed => ⟨false, 1, true⟩

end Bot

namespace Handlers

/-- `send_feedback_request` (`handlers/feedback.py` lines 66-90): one
`send_message` attempt; returns `True` on success and `False` after logging
on a transport exception, never raising and never retrying. -/
def send_feedback_request : TransportOutcome → Bool × NotifyResult
  | .delivered => (true, ⟨false, 1, false⟩)
  | .failed => (false, ⟨false, 1, true⟩)

end Handlers

/-!
Interleaving model of the dedup step under two concurrent scheduling passes.
`bot.py` lines 519-526 run, for a fixed dedup key, the two-statement program
`if job_name not in [job.id for job in scheduler.get_jobs()]:
scheduler.add_job(..., id=job_name)`.  Each pass is modelled as a thread
acting on the shared job-id list of the scheduler's store:

* the membership check of line 519 is one atomic read, whose boolean is
  captured in the thread's state;
* `scheduler.add_job` is one atomic action: APScheduler's
  `BaseScheduler.add_job` runs under its jobstore lock and the in-memory
  jobstore raises `ConflictingIdError` when a job with the requested id is
  already present, so the call either appends the id (absent) or raises
  (present) — it never inserts a duplicate.  A raised `ConflictingIdError`
  propagates out of `check_and_schedule_feedback_requests`, which has no
  handler, aborting that pass (`crashed`);
* a thread whose own check saw the key present skips the add (`done`).
-/

/-- Program counter of one pass restricted to the dedup step: before the
membership check, after the check (remembering whether the key was absent),
finished normally, or aborted by `ConflictingIdError` from `add_job`. -/
inductive TState where
  | start
  | checked (absent : Bool)
  | done
  | crashed
deriving DecidableEq, Repr

/-- Shared scheduler job-id list plus the two threads' program counters. -/
structure RaceState where
  jobs : List String
  t1 : TState
  t2 : TState
deriving DecidableEq, Repr

/-- One atomic action of either pass on the shared state, for dedup key `k`. -/
inductive raceStep (k : String) : RaceState → RaceState → Prop where
  | check1 (s : RaceState) (h : s.t1 = .start) :
      raceStep k s ⟨s.jobs, .checked (!(s.jobs.contains k)), s.t2⟩
  | insert1 (s : RaceState) (h : s.t1 = .checked true) (habs : s.jobs.contains k = false) :
      raceStep k s ⟨s.jobs ++ [k], .done, s.t2⟩
  | conflict1 (s : RaceState) (h : s.t1 = .checked true) (hpres : s.jobs.contains k = true) :
      raceStep k s ⟨s.jobs, .crashed, s.t2⟩
  | skip1 (s : RaceState) (h : s.t1 = .checked false) :
      raceStep k s ⟨s.jobs, .done, s.t2⟩
  | check2 (s : RaceState) (h : s.t2 = .start) :
      raceStep k s ⟨s.jobs, s.t1, .checked (!(s.jobs.contains k))⟩
  | insert2 (s : RaceState) (h : s.t2 = .checked true) (habs : s.jobs.contains k = false) :
      raceStep k s ⟨s.jobs ++ [k], s.t1, .done⟩
  | conflict2 (s : RaceState) (h : s.t2 = .checked true) (hpres : s.jobs.contains k = true) :
      raceStep k s ⟨s.jobs, s.t1, .crashed⟩
  | skip2 (s : RaceState) (h : s.t2 = .checked false) :
      raceStep k s ⟨s.jobs, s.t1, .done⟩

/-- Invariant of the two-pass dedup race: the shared store never holds the
key twice, and a thread that saw the key present (its check returned false),
finished, or crashed guarantees the key is recorded. -/
def RaceInv (k : String) (s : RaceState) : Prop :=
  s.jobs.count k ≤ 1 ∧
    ((s.t1 = .checked false ∨ s.t1 = .done ∨ s.t1 = .crashed) → 1 ≤ s.jobs.count k) ∧
    ((s.t2 = .checked false ∨ s.t2 = .done ∨ s.t2 = .crashed) → 1 ≤ s.jobs.count k)

/-!
Embedding of the two `parse_date` implementations.  Fallible Python
operations are modelled in `Except PyErr`; a `try/except` catching a listed
error kind maps the corresponding `.error` back to a normal value and lets
any other kind propagate.
-/

/-- The Python exception kinds relevant to the date helpers. -/
inductive PyErr where
  | valueError
  | indexError
  | overflowError
  | otherError
deriving DecidableEq, Repr

/-- The naive datetime value the parsers produce (the `tzinfo` argument of
`utils.parse_date` selects the fixed deployment zone and carries no data). -/
structure PyDateTime where
  year : Int
  month : Int
  day : Int
deriving DecidableEq, Repr

/-- ASCII digit: codepoint between `'0'` (48) and `'9'` (57); the `Char`
order is the codepoint order, so this is `'0' <= c <= '9'`. -/
def pyDigit (c : Char) : Bool := 48 ≤ c.toNat && c.toNat ≤ 57

def digitVal (c : Char) : Nat := c.toNat - 48

/-- ASCII whitespace, as stripped by Python `str.strip()` and ignored around
the argument of `int()`. -/
def pySpace (c : Char) : Bool :=
  c == ' ' || c == '\t' || c == '\n' || c == '\r' || c == '\x0b' || c == '\x0c'

/-- Python `s.strip()` on the character list: drop whitespace from both ends. -/
def pyStrip (cs : List Char) : List Char :=
  ((cs.dropWhile pySpace).reverse.dropWhile pySpace).reverse

/-- Python `s.split('.')`: split at every dot, keeping empty segments
(`"".split('.') == ['']`). -/
def pySplitDot : List Char → List (List Char)
  | [] => [[]]
  | c :: cs =>
      if c = '.' then [] :: pySplitDot cs
      else
        match pySplitDot cs with
        | [] => [[c]]
        | p :: ps => (c :: p) :: ps

/-- Digit run of a Python integer literal body: digits, with single
underscores allowed strictly between digits (`int("1_0") == 10`). -/
def intBodyAux (acc : Nat) : List Char → Option Nat
  | [] => some acc
  | c :: cs =>
      if pyDigit c then intBodyAux (10 * acc + digitVal c) cs
      else if c = '_' then
        match cs with
        | c2 :: cs2 => if pyDigit c2 then intBodyAux (10 * acc + digitVal c2) cs2 else none
        | [] => none
      else none

def intBody : List Char → Option Nat
  | [] => none
  | c :: cs => if pyDigit c then intBodyAux (digitVal c) cs else none

/-- Python `int(s)` on a string: strip surrounding whitespace, allow one
leading sign, then a digit run; anything else raises `ValueError`. -/
def pyInt (s : List Char) : Except PyErr Int :=
  match pyStrip s with
  | '+' :: rest =>
      match intBody rest with
      | some n => .ok (n : Int)
      | none => .error .valueError
  | '-' :: rest =>
      match intBody rest with
      | some n => .ok (-(n : Int))
      | none => .error .valueError
  | cs =>
      match intBody cs with
      | some n => .ok (n : Int)
      | none => .error .valueError

def isLeapYear (y : Int) : Bool :=
  y % 4 == 0 && (y % 100 != 0 || y % 400 == 0)

def daysInMonth (y m : Int) : Int :=
  if m == 2 then (if isLeapYear y then 29 else 28)
  else if m == 4 || m == 6 || m == 9 || m == 11 then 30
  else 31

/-- The Gregorian validity check of the `datetime` constructor:
`MINYEAR = 1 <= year <= MAXYEAR = 9999`, month 1-12, day within the month. -/
def validDate (y m d : Int) : Bool :=
  1 ≤ y && y ≤ 9999 && 1 ≤ m && m ≤ 12 && 1 ≤ d && d ≤ daysInMonth y m

/-- Python `datetime(year, month, day)`: CPython first converts the three
arguments (in order) to C ints, raising `OverflowError` for a value outside
the signed 32-bit range, then range-checks them, raising `ValueError` on an
invalid calendar date; on a valid date it returns the value. -/
def datetimeCtor (y m d : Int) : Except PyErr PyDateTime :=
  if y < -2147483648 ∨ 2147483647 < y then .error .overflowError
  else if m < -2147483648 ∨ 2147483647 < m then .error .overflowError
  else if d < -2147483648 ∨ 2147483647 < d then .error .overflowError
  else if validDate y m d then .ok ⟨y, m, d⟩
  else .error .valueError

namespace Utils

/-- The part of `parse_date` (`utils.py` lines 19-29) after the split: with
exactly three parts, convert day, month, year by `int` in that order (the
first failing conversion raises) and build the datetime; otherwise return
`None`. -/
def parse_date_parts (parts : List (List Char)) : Except PyErr (Option PyDateTime) :=
  if parts.length = 3 then
    match pyInt (parts.getD 0 []) with
    | .error e => .error e
    | .ok d =>
        match pyInt (parts.getD 1 []) with
        | .error e => .error e
        | .ok m =>
            match pyInt (parts.getD 2 []) with
            | .error e => .error e
            | .ok y =>
                match datetimeCtor y m d with
                | .error e => .error e
                | .ok dt => .ok (some dt)
  else .ok none

/-- Body of `parse_date` (`utils.py`) before its `except`: strip the string,
split on `'.'`, then convert (`date_parts = date_str.strip().split('.')`). -/
def parse_date_body (s : String) : Except PyErr (Option PyDateTime) :=
  parse_date_parts (pySplitDot (pyStrip s.toList))

/-- `parse_date` (`utils.py`): the body with
`except (ValueError, IndexError): return None`; any other exception kind
would propagate. -/
def parse_date (s : String) : Except PyErr (Option PyDateTime) :=
  match parse_date_body s with
  | .error .valueError => .ok none
  | .error .indexError => .ok none
  | r => r

end Utils

namespace Helpers

/-- `re.match(r'^\d\x7b2\x7d\.\d\x7b2\x7d\.\d\x7b4\x7d$', s)`: exactly
`DD.MM.YYYY` in digits.  (Python `re.match` with `$` would also accept one
trailing newline, but on such input `strptime` raises `ValueError` over the
unconverted trailing character, so the caught result `None` coincides with
this model.) -/
def matchDMY (s : String) : Bool :=
  match s.toList with
  | [d1, d2, p1, m1, m2, p2, y1, y2, y3, y4] =>
      pyDigit d1 && pyDigit d2 && p1 == '.' && pyDigit m1 && pyDigit m2 && p2 == '.' &&
        pyDigit y1 && pyDigit y2 && pyDigit y3 && pyDigit y4
  | _ => false

/-- `re.match(r'^\d\x7b4\x7d-\d\x7b2\x7d-\d\x7b2\x7d$', s)`: exactly
`YYYY-MM-DD` in digits. -/
def matchYMD (s : String) : Bool :=
  match s.toList with
  | [y1, y2, y3, y4, p1, m1, m2, p2, d1, d2] =>
      pyDigit y1 && pyDigit y2 && pyDigit y3 && pyDigit y4 && p1 == '-' &&
        pyDigit m1 && pyDigit m2 && p2 == '-' && pyDigit d1 && pyDigit d2
  | _ => false

/-- `datetime.strptime(s, '%d.%m.%Y')` on a fixed-width `DD.MM.YYYY` input:
`strptime` itself re-validates the format — any non-digit field or wrong
separator raises `ValueError` — then reads the fields and validates the
calendar date exactly as the `datetime` constructor does.  The two-digit
day/month and four-digit year always fit a C int, so no `OverflowError` is
reachable here. -/
def strptimeDMY (s : String) : Except PyErr PyDateTime :=
  match s.toList with
  | [d1, d2, p1, m1, m2, p2, y1, y2, y3, y4] =>
      if pyDigit d1 && pyDigit d2 && p1 == '.' && pyDigit m1 && pyDigit m2 && p2 == '.' &&
          pyDigit y1 && pyDigit y2 && pyDigit y3 && pyDigit y4 then
        datetimeCtor
          ((1000 * digitVal y1 + 100 * digitVal y2 + 10 * digitVal y3 + digitVal y4 : Nat) : Int)
          ((10 * digitVal m1 + digitVal m2 : Nat) : Int)
          ((10 * digitVal d1 + digitVal d2 : Nat) : Int)
      else .error .valueError
  | _ => .error .valueError

/-- `datetime.strptime(s, '%Y-%m-%d')` on a fixed-width `YYYY-MM-DD` input,
with the same format re-validation as the `DD.MM.YYYY` case. -/
def strptimeYMD (s : String) : Except PyErr PyDateTime :=
  match s.toList with
  | [y1, y2, y3, y4, p1, m1, m2, p2, d1, d2] =>
      if pyDigit y1 && pyDigit y2 && pyDigit y3 && pyDigit y4 && p1 == '-' &&
          pyDigit m1 && pyDigit m2 && p2 == '-' && pyDigit d1 && pyDigit d2 then
        datetimeCtor
          ((1000 * digitVal y1 + 100 * digitVal y2 + 10 * digitVal y3 + digitVal y4 : Nat) : Int)
          ((10 * digitVal m1 + digitVal m2 : Nat) : Int)
          ((10 * digitVal d1 + digitVal d2 : Nat) : Int)
      else .error .valueError
  | _ => .error .valueError

/-- `parse_date` (`utils/helpers.py` lines 35-57): try the `DD.MM.YYYY`
pattern, then the `YYYY-MM-DD` pattern, else warn and return `None`; a
`ValueError` from `strptime` is caught and turned into `None`. -/
def parse_date (s : String) : Except PyErr (Option PyDateTime) :=
  if matchDMY s then
    match strptimeDMY s with
    | .ok dt => .ok (some dt)
    | .error .valueError => .ok none
    | .error e => .error e
  else if matchYMD s then
    match strptimeYMD s with
    | .ok dt => .ok (some dt)
    | .error .valueError => .ok none
    | .error e => .error e
  else .ok none

end Helpers

/-!
Concrete instances used by witnesses and counterexamples.  Day 0 is a
Monday; 61200 s is 17:00, 64800 s is 18:00, 65100 s is 18:05 on that day.
-/

/-- One `weekday` schedule row ending Monday 18:00. -/
def mondayEntry : Schedule := ⟨"weekday", 0, 64800⟩

/-- An active `weekday` user with a past start date. -/
def activeUser : User := ⟨42, "weekday", 0, true⟩

/-- Store with one Monday 18:00 entry and one matching active user. -/
def exampleStore : Store := ⟨[mondayEntry], [activeUser]⟩

/-- Store whose only matching user starts far in the future. -/
def futureStartStore : Store := ⟨[mondayEntry], [⟨42, "weekday", 999999999, true⟩]⟩

/-- Store whose only matching user is deactivated. -/
def inactiveStore : Store := ⟨[mondayEntry], [⟨7, "weekday", 0, false⟩]⟩

/-- Store with no schedule rows at all. -/
def emptyStore : Store := ⟨[], []⟩

/-- The dedup key of user 42 on day 0, as built by `job_name`. -/
def dupKey : String := job_name 42 0

/-!  General lemmas about the folds used by the two passes. -/

lemma mem_foldl_append {α β : Type} (l : List α) (g : α → List β) (acc : List β) (b : β) :
    b ∈ l.foldl (fun r a => r ++ g a) acc ↔ b ∈ acc ∨ ∃ a ∈ l, b ∈ g a := by
  induction l generalizing acc with
  | nil => simp
  | cons x xs ih =>
      simp only [List.foldl_cons, ih, List.mem_append, List.mem_cons]
      constructor
      · rintro ((h | h) | ⟨a, ha, hb⟩)
        · exact Or.inl h
        · exact Or.inr ⟨x, Or.inl rfl, h⟩
        · exact Or.inr ⟨a, Or.inr ha, hb⟩
      · rintro (h | ⟨a, (rfl | ha), hb⟩)
        · exact Or.inl (Or.inl h)
        · exact Or.inl (Or.inr hb)
        · exact Or.inr ⟨a, ha, hb⟩

lemma countKey_append (a b : List Job) (k : String) :
    countKey (a ++ b) k = countKey a k + countKey b k := by
  simp [countKey, List.filter_append]

lemma countKey_eq_zero (jobs : List Job) (k : String) :
    countKey jobs k = 0 ↔ k ∉ jobs.map Job.id := by
  rw [countKey, List.length_eq_zero, List.filter_eq_nil_iff]
  simp only [beq_iff_eq, List.mem_map]
  constructor
  · rintro h ⟨j, hj, rfl⟩
    exact h j hj rfl
  · intro h j hj hk
    exact h ⟨j, hj, hk⟩

lemma countKey_add_feedback_job (now : Int) (sch : Schedule) (jobs : List Job) (u : User)
    (k : String) :
    countKey (Bot.add_feedback_job now sch jobs u) k =
      if countKey jobs k = 0 ∧ ¬ now > class_end_time now sch ∧
          job_name u.chat_id (dateOf now) = k
      then 1 else countKey jobs k := by
  unfold Bot.add_feedback_job
  by_cases ht : now > class_end_time now sch
  · simp [ht]
  · rw [if_neg ht]
    by_cases hm : job_name u.chat_id (dateOf now) ∈ jobs.map Job.id
    · rw [if_pos hm]
      by_cases hk : job_name u.chat_id (dateOf now) = k
      · have hne : ¬ countKey jobs k = 0 := by
          rw [countKey_eq_zero, ← hk]
          simpa using hm
        simp [hne]
      · simp [hk]
    · rw [if_neg hm, countKey_append]
      by_cases hk : job_name u.chat_id (dateOf now) = k
      · have h0 : countKey jobs k = 0 := by rw [countKey_eq_zero, ← hk]; exact hm
        have h1 : countKey [Bot.mkJob now sch u] k = 1 := by
          simp [countKey, Bot.mkJob, hk]
        rw [if_pos ⟨h0, ht, hk⟩, h0, h1]
      · have h1 : countKey [Bot.mkJob now sch u] k = 0 := by
          simp [countKey, Bot.mkJob, hk]
        rw [h1, if_neg (by rintro ⟨_, _, hkk⟩; exact hk hkk)]
        omega

lemma countKey_users_foldl_ne_zero (now : Int) (sch : Schedule) (l : List User)
    (jobs : List Job) (k : String) (h : countKey jobs k ≠ 0) :
    countKey (l.foldl (Bot.add_feedback_job now sch) jobs) k = countKey jobs k := by
  induction l generalizing jobs with
  | nil => rfl
  | cons u us ih =>
      have hstep : countKey (Bot.add_feedback_job now sch jobs u) k = countKey jobs k := by
        rw [countKey_add_feedback_job, if_neg (by rintro ⟨h0, _, _⟩; exact h h0)]
      simp only [List.foldl_cons]
      rw [ih (Bot.add_feedback_job now sch jobs u) (by rw [hstep]; exact h), hstep]

lemma countKey_schedules_foldl_ne_zero (store : Store) (now : Int) (ss : List Schedule)
    (jobs : List Job) (k : String) (h : countKey jobs k ≠ 0) :
    countKey
      (ss.foldl
        (fun js sch => (Bot.users_for store now sch).foldl (Bot.add_feedback_job now sch) js)
        jobs) k = countKey jobs k := by
  induction ss generalizing jobs with
  | nil => rfl
  | cons sch rest ih =>
      simp only [List.foldl_cons]
      have hstep := countKey_users_foldl_ne_zero now sch (Bot.users_for store now sch) jobs k h
      rw [ih _ (by rw [hstep]; exact h), hstep]

lemma countKey_bot_pass_ne_zero (store : Store) (now : Int) (jobs : List Job) (k : String)
    (h : countKey jobs k ≠ 0) :
    countKey (Bot.check_and_schedule_feedback_requests store now jobs) k = countKey jobs k :=
  countKey_schedules_foldl_ne_zero store now (schedules_for_today store now) jobs k h

lemma users_foldl_time_passed (now : Int) (sch : Schedule)
    (ht : now > class_end_time now sch) (l : List User) (jobs : List Job) :
    l.foldl (Bot.add_feedback_job now sch) jobs = jobs := by
  induction l generalizing jobs with
  | nil => rfl
  | cons u us ih =>
      simp only [List.foldl_cons, Bot.add_feedback_job, if_pos ht]
      exact ih jobs

lemma countKey_users_foldl_no_adder (now : Int) (sch : Schedule) (l : List User)
    (jobs : List Job) (k : String) (h0 : countKey jobs k = 0)
    (hno : ∀ u ∈ l, job_name u.chat_id (dateOf now) ≠ k) :
    countKey (l.foldl (Bot.add_feedback_job now sch) jobs) k = 0 := by
  induction l generalizing jobs with
  | nil => exact h0
  | cons u us ih =>
      have hstep : countKey (Bot.add_feedback_job now sch jobs u) k = 0 := by
        rw [countKey_add_feedback_job,
          if_neg (by rintro ⟨_, _, hkk⟩; exact hno u (by simp) hkk)]
        exact h0
      simp only [List.foldl_cons]
      exact ih _ hstep (fun v hv => hno v (by simp [hv]))

lemma countKey_users_foldl_adder (now : Int) (sch : Schedule) (l : List User)
    (jobs : List Job) (k : String) (h0 : countKey jobs k = 0)
    (ht : ¬ now > class_end_time now sch)
    (ha : ∃ u ∈ l, job_name u.chat_id (dateOf now) = k) :
    countKey (l.foldl (Bot.add_feedback_job now sch) jobs) k = 1 := by
  induction l generalizing jobs with
  | nil => simp at ha
  | cons u us ih =>
      simp only [List.foldl_cons]
      by_cases hu : job_name u.chat_id (dateOf now) = k
      · have hstep : countKey (Bot.add_feedback_job now sch jobs u) k = 1 := by
          rw [countKey_add_feedback_job, if_pos ⟨h0, ht, hu⟩]
        rw [countKey_users_foldl_ne_zero now sch us _ k (by rw [hstep]; omega)]
        exact hstep
      · obtain ⟨v, hv, hvk⟩ := ha
        rcases List.mem_cons.mp hv with rfl | hv2
        · exact absurd hvk hu
        · have hstep : countKey (Bot.add_feedback_job now sch jobs u) k = 0 := by
            rw [countKey_add_feedback_job, if_neg (by rintro ⟨_, _, hkk⟩; exact hu hkk)]
            exact h0
          exact ih _ hstep ⟨v, hv2, hvk⟩

lemma countKey_schedules_foldl_adder (store : Store) (now : Int) (ss : List Schedule)
    (jobs : List Job) (k : String) (h0 : countKey jobs k = 0)
    (ha : ∃ sch ∈ ss, ¬ now > class_end_time now sch ∧
        ∃ u ∈ Bot.users_for store now sch, job_name u.chat_id (dateOf now) = k) :
    countKey
      (ss.foldl
        (fun js sch => (Bot.users_for store now sch).foldl (Bot.add_feedback_job now sch) js)
        jobs) k = 1 := by
  induction ss generalizing jobs with
  | nil => simp at ha
  | cons sch rest ih =>
      simp only [List.foldl_cons]
      by_cases hsch : ¬ now > class_end_time now sch ∧
          ∃ u ∈ Bot.users_for store now sch, job_name u.chat_id (dateOf now) = k
      · have h1 : countKey
            ((Bot.users_for store now sch).foldl (Bot.add_feedback_job now sch) jobs) k = 1 :=
          countKey_users_foldl_adder now sch _ jobs k h0 hsch.1 hsch.2
        rw [countKey_schedules_foldl_ne_zero store now rest _ k (by rw [h1]; omega)]
        exact h1
      · have h0' : countKey
            ((Bot.users_for store now sch).foldl (Bot.add_feedback_job now sch) jobs) k = 0 := by
          rcases not_and_or.mp hsch with ht | hnu
          · rw [users_foldl_time_passed now sch (not_not.mp ht)]
            exact h0
          · push_neg at hnu
            exact countKey_users_foldl_no_adder now sch _ jobs k h0 hnu
        obtain ⟨sch', hmem, hrest⟩ := ha
        rcases List.mem_cons.mp hmem with rfl | h2
        · exact absurd hrest hsch
        · exact ih _ h0' ⟨sch', h2, hrest⟩

lemma mem_add_feedback_job (now : Int) (sch : Schedule) (jobs : List Job) (u : User)
    (j : Job) (h : j ∈ Bot.add_feedback_job now sch jobs u) :
    j ∈ jobs ∨ j = Bot.mkJob now sch u := by
  unfold Bot.add_feedback_job at h
  split at h
  · exact Or.inl h
  · split at h
    · exact Or.inl h
    · rcases List.mem_append.mp h with h2 | h2
      · exact Or.inl h2
      · exact Or.inr (by simpa using h2)

lemma mem_users_foldl (now : Int) (sch : Schedule) (l : List User) (jobs : List Job)
    (j : Job) (h : j ∈ l.foldl (Bot.add_feedback_job now sch) jobs) :
    j ∈ jobs ∨ ∃ u ∈ l, j = Bot.mkJob now sch u := by
  induction l generalizing jobs with
  | nil => exact Or.inl h
  | cons u us ih =>
      rcases ih _ h with h2 | ⟨v, hv, hj⟩
      · rcases mem_add_feedback_job now sch jobs u j h2 with h3 | h3
        · exact Or.inl h3
        · exact Or.inr ⟨u, by simp, h3⟩
      · exact Or.inr ⟨v, by simp [hv], hj⟩

lemma mem_bot_pass (store : Store) (now : Int) (ss : List Schedule) (jobs : List Job)
    (j : Job)
    (h : j ∈ ss.foldl
        (fun js sch => (Bot.users_for store now sch).foldl (Bot.add_feedback_job now sch) js)
        jobs) :
    j ∈ jobs ∨ ∃ sch ∈ ss, ∃ u ∈ Bot.users_for store now sch, j = Bot.mkJob now sch u := by
  induction ss generalizing jobs with
  | nil => exact Or.inl h
  | cons sch rest ih =>
      rcases ih _ h with h2 | ⟨sch', hs, v, hv, hj⟩
      · rcases mem_users_foldl now sch _ jobs j h2 with h3 | ⟨v, hv, hj⟩
        · exact Or.inl h3
        · exact Or.inr ⟨sch, by simp, v, hv, hj⟩
      · exact Or.inr ⟨sch', by simp [hs], v, hv, hj⟩

/-!  Lemmas about the `database.py` evaluator. -/

lemma sub_class_end (now : Int) (sch : Schedule) :
    now - class_end_time now sch = timeOfDay now - sch.end_time := by
  unfold class_end_time timeOfDay
  ring

lemma mem_users_to_notify (store : Store) (now : Int) (c : Int) :
    c ∈ Database.users_to_notify store now ↔
      ∃ sch ∈ schedules_for_today store now, Database.grace_eligible now sch = true ∧
        c ∈ (Database.users_in_group store sch.group_type).map User.chat_id := by
  unfold Database.users_to_notify
  rw [mem_foldl_append]
  simp only [List.not_mem_nil, false_or]
  constructor
  · rintro ⟨sch, hs, hc⟩
    unfold Database.schedule_batch at hc
    split at hc
    · exact ⟨sch, hs, by assumption, hc⟩
    · simp at hc
  · rintro ⟨sch, hs, hg, hc⟩
    exact ⟨sch, hs, by unfold Database.schedule_batch; rw [if_pos hg]; exact hc⟩

lemma users_in_group_spec (store : Store) (g : String) (u : User)
    (h : u ∈ Database.users_in_group store g) :
    u ∈ store.users ∧ u.group_type = g ∧ u.is_active = true := by
  have h2 := List.mem_filter.mp h
  refine ⟨h2.1, ?_, ?_⟩
  · have := h2.2
    simp only [Bool.and_eq_true, beq_iff_eq] at this
    exact this.1
  · have := h2.2
    simp only [Bool.and_eq_true, beq_iff_eq] at this
    exact this.2

lemma users_for_spec (store : Store) (now : Int) (sch : Schedule) (u : User)
    (h : u ∈ Bot.users_for store now sch) :
    u ∈ store.users ∧ u.group_type = sch.group_type ∧ u.is_active = true ∧
      u.start_date ≤ now := by
  have h2 := List.mem_filter.mp h
  have hb := h2.2
  simp only [Bool.and_eq_true, beq_iff_eq, decide_eq_true_eq] at hb
  exact ⟨h2.1, hb.1.1, hb.1.2, hb.2⟩

lemma user_read_ops_isRead (store : Store) (now : Int) (op : StoreOp)
    (h : op ∈ Database.user_read_ops store now) : op.isRead = true := by
  unfold Database.user_read_ops at h
  rw [mem_foldl_append] at h
  rcases h with h | ⟨sch, _, h⟩
  · simp at h
  · split at h
    · simp only [List.mem_singleton] at h
      rw [h]
      rfl
    · simp at h

lemma db_pass_ops_isRead (a : Database.StoreAccess) (now : Int) (op : StoreOp)
    (h : op ∈ (Database.check_and_schedule_feedback_requests a now).ops) :
    op.isRead = true := by
  cases a with
  | unreachable => simp [Database.check_and_schedule_feedback_requests] at h
  | failingSchedules =>
      simp only [Database.check_and_schedule_feedback_requests,
        List.mem_singleton] at h
      rw [h]
      rfl
  | failingUsers store =>
      simp only [Database.check_and_schedule_feedback_requests, List.mem_cons] at h
      rcases h with h | h
      · rw [h]; rfl
      · exact user_read_ops_isRead store now op h
  | available store =>
      simp only [Database.check_and_schedule_feedback_requests, List.mem_cons] at h
      rcases h with h | h
      · rw [h]; rfl
      · exact user_read_ops_isRead store now op h

lemma applyOps_of_reads (store : Store) (ops : List StoreOp)
    (h : ∀ op ∈ ops, StoreOp.isRead op = true) : applyOps store ops = store := by
  induction ops generalizing store with
  | nil => rfl
  | cons op rest ih =>
      have h1 : applyOp store op = store := by
        cases op with
        | addSchedule sch =>
            exact absurd (h (StoreOp.addSchedule sch) (by simp)) (by simp [StoreOp.isRead])
        | commit =>
            exact absurd (h StoreOp.commit (by simp)) (by simp [StoreOp.isRead])
        | countSchedules => rfl
        | readSchedules d => rfl
        | readUsers g => rfl
      show applyOps (applyOp store op) rest = store
      rw [h1]
      exact ih store (fun o ho => h o (by simp [ho]))

/-!  Lemmas about the date parsers. -/

lemma pyInt_no_other (cs : List Char) (e : PyErr) (h : pyInt cs = .error e) :
    e = .valueError := by
  unfold pyInt at h
  split at h <;> split at h <;> simp_all

lemma datetimeCtor_error_kinds (y m d : Int) (e : PyErr)
    (h : datetimeCtor y m d = .error e) : e = .valueError ∨ e = .overflowError := by
  unfold datetimeCtor at h
  split at h
  · cases h
    exact Or.inr rfl
  · split at h
    · cases h
      exact Or.inr rfl
    · split at h
      · cases h
        exact Or.inr rfl
      · split at h
        · cases h
        · cases h
          exact Or.inl rfl

lemma datetimeCtor_bounded_error (y m d : Int) (e : PyErr)
    (hy0 : 0 ≤ y) (hy1 : y ≤ 2147483647) (hm0 : 0 ≤ m) (hm1 : m ≤ 2147483647)
    (hd0 : 0 ≤ d) (hd1 : d ≤ 2147483647)
    (h : datetimeCtor y m d = .error e) : e = .valueError := by
  unfold datetimeCtor at h
  rw [if_neg (by omega), if_neg (by omega), if_neg (by omega)] at h
  split at h
  · cases h
  · cases h
    rfl

lemma datetimeCtor_valid (y m d : Int) (dt : PyDateTime) (h : datetimeCtor y m d = .ok dt) :
    validDate dt.year dt.month dt.day = true := by
  unfold datetimeCtor at h
  split at h
  · cases h
  · split at h
    · cases h
    · split at h
      · cases h
      · split at h
        · cases h
          assumption
        · cases h

lemma digitVal_le_nine (c : Char) (h : pyDigit c = true) : digitVal c ≤ 9 := by
  unfold pyDigit at h
  rw [Bool.and_eq_true, decide_eq_true_eq, decide_eq_true_eq] at h
  unfold digitVal
  omega

lemma parse_date_parts_error_kinds (parts : List (List Char)) (e : PyErr)
    (h : Utils.parse_date_parts parts = .error e) :
    e = .valueError ∨ e = .overflowError := by
  unfold Utils.parse_date_parts at h
  split at h
  · split at h
    case _ e1 heq =>
      cases h
      exact Or.inl (pyInt_no_other _ _ heq)
    case _ d heq =>
      split at h
      case _ e1 heq1 =>
        cases h
        exact Or.inl (pyInt_no_other _ _ heq1)
      case _ m heq1 =>
        split at h
        case _ e1 heq2 =>
          cases h
          exact Or.inl (pyInt_no_other _ _ heq2)
        case _ y heq2 =>
          split at h
          case _ e1 heq3 =>
            cases h
            exact datetimeCtor_error_kinds _ _ _ _ heq3
          case _ dt heq3 => cases h
  · cases h

lemma parse_date_parts_valid (parts : List (List Char)) (dt : PyDateTime)
    (h : Utils.parse_date_parts parts = .ok (some dt)) :
    validDate dt.year dt.month dt.day = true := by
  unfold Utils.parse_date_parts at h
  split at h
  · split at h
    case _ e1 heq => cases h
    case _ d heq =>
      split at h
      case _ e1 heq1 => cases h
      case _ m heq1 =>
        split at h
        case _ e1 heq2 => cases h
        case _ y heq2 =>
          split at h
          case _ e1 heq3 => cases h
          case _ dt1 heq3 =>
            cases h
            exact datetimeCtor_valid _ _ _ _ heq3
  · cases h

lemma utils_parse_date_ok_or_overflow (s : String) :
    (∃ r, Utils.parse_date s = .ok r) ∨ Utils.parse_date s = .error .overflowError := by
  unfold Utils.parse_date
  cases hb : Utils.parse_date_body s with
  | ok r => exact Or.inl ⟨r, rfl⟩
  | error e =>
      rcases parse_date_parts_error_kinds _ _ hb with rfl | rfl
      · exact Or.inl ⟨none, rfl⟩
      · exact Or.inr rfl

lemma utils_parse_date_valid (s : String) (dt : PyDateTime)
    (h : Utils.parse_date s = .ok (some dt)) :
    validDate dt.year dt.month dt.day = true := by
  unfold Utils.parse_date at h
  cases hb : Utils.parse_date_body s with
  | ok r =>
      rw [hb] at h
      simp only [] at h
      cases r with
      | none => simp at h
      | some dt1 =>
          have : dt1 = dt := by simpa using h
          subst this
          exact parse_date_parts_valid _ _ hb
  | error e =>
      rcases parse_date_parts_error_kinds _ _ hb with rfl | rfl
      · rw [hb] at h
        simp at h
      · rw [hb] at h
        simp at h

lemma strptimeDMY_no_other (s : String) (e : PyErr) (h : Helpers.strptimeDMY s = .error e) :
    e = .valueError := by
  unfold Helpers.strptimeDMY at h
  split at h
  · split at h
    · rename_i hg
      simp only [Bool.and_eq_true] at hg
      obtain ⟨⟨⟨⟨⟨⟨⟨⟨⟨h1, h2⟩, _⟩, h3⟩, h4⟩, _⟩, h5⟩, h6⟩, h7⟩, h8⟩ := hg
      have b1 := digitVal_le_nine _ h1
      have b2 := digitVal_le_nine _ h2
      have b3 := digitVal_le_nine _ h3
      have b4 := digitVal_le_nine _ h4
      have b5 := digitVal_le_nine _ h5
      have b6 := digitVal_le_nine _ h6
      have b7 := digitVal_le_nine _ h7
      have b8 := digitVal_le_nine _ h8
      exact datetimeCtor_bounded_error _ _ _ e (by omega) (by omega) (by omega) (by omega)
        (by omega) (by omega) h
    · cases h
      rfl
  · cases h
    rfl

lemma strptimeYMD_no_other (s : String) (e : PyErr) (h : Helpers.strptimeYMD s = .error e) :
    e = .valueError := by
  unfold Helpers.strptimeYMD at h
  split at h
  · split at h
    · rename_i hg
      simp only [Bool.and_eq_true] at hg
      obtain ⟨⟨⟨⟨⟨⟨⟨⟨⟨h1, h2⟩, h3⟩, h4⟩, _⟩, h5⟩, h6⟩, _⟩, h7⟩, h8⟩ := hg
      have b1 := digitVal_le_nine _ h1
      have b2 := digitVal_le_nine _ h2
      have b3 := digitVal_le_nine _ h3
      have b4 := digitVal_le_nine _ h4
      have b5 := digitVal_le_nine _ h5
      have b6 := digitVal_le_nine _ h6
      have b7 := digitVal_le_nine _ h7
      have b8 := digitVal_le_nine _ h8
      exact datetimeCtor_bounded_error _ _ _ e (by omega) (by omega) (by omega) (by omega)
        (by omega) (by omega) h
    · cases h
      rfl
  · cases h
    rfl

lemma strptimeDMY_valid (s : String) (dt : PyDateTime) (h : Helpers.strptimeDMY s = .ok dt) :
    validDate dt.year dt.month dt.day = true := by
  unfold Helpers.strptimeDMY at h
  split at h
  · split at h
    · exact datetimeCtor_valid _ _ _ _ h
    · cases h
  · cases h

lemma strptimeYMD_valid (s : String) (dt : PyDateTime) (h : Helpers.strptimeYMD s = .ok dt) :
    validDate dt.year dt.month dt.day = true := by
  unfold Helpers.strptimeYMD at h
  split at h
  · split at h
    · exact datetimeCtor_valid _ _ _ _ h
    · cases h
  · cases h

lemma helpers_parse_date_ok (s : String) : ∃ r, Helpers.parse_date s = .ok r := by
  unfold Helpers.parse_date
  by_cases h1 : Helpers.matchDMY s
  · rw [if_pos h1]
    cases hd : Helpers.strptimeDMY s with
    | ok dt => exact ⟨some dt, rfl⟩
    | error e =>
        have := strptimeDMY_no_other _ _ hd
        subst this
        exact ⟨none, rfl⟩
  · rw [if_neg h1]
    by_cases h2 : Helpers.matchYMD s
    · rw [if_pos h2]
      cases hd : Helpers.strptimeYMD s with
      | ok dt => exact ⟨some dt, rfl⟩
      | error e =>
          have := strptimeYMD_no_other _ _ hd
          subst this
          exact ⟨none, rfl⟩
    · rw [if_neg h2]
      exact ⟨none, rfl⟩

lemma helpers_parse_date_valid (s : String) (dt : PyDateTime)
    (h : Helpers.parse_date s = .ok (some dt)) :
    validDate dt.year dt.month dt.day = true := by
  unfold Helpers.parse_date at h
  split at h
  · split at h
    case _ dt1 heq =>
      have : dt1 = dt := by simpa using h
      subst this
      exact strptimeDMY_valid _ _ heq
    case _ heq => simp at h
    case _ e heq => cases h
  · split at h
    · split at h
      case _ dt1 heq =>
        have : dt1 = dt := by simpa using h
        subst this
        exact strptimeYMD_valid _ _ heq
      case _ heq => simp at h
      case _ e heq => cases h
    · simp at h

/-!  Lemmas about the interleaving model of the dedup step. -/

lemma str_contains_iff_mem (l : List String) (k : String) :
    l.contains k = true ↔ k ∈ l := by
  simp [List.contains_iff_exists_mem_beq]

lemma count_of_contains_false (l : List String) (k : String) (h : l.contains k = false) :
    l.count k = 0 := by
  rw [List.count_eq_zero]
  intro hmem
  rw [(str_contains_iff_mem l k).mpr hmem] at h
  cases h

lemma count_pos_of_contains_true (l : List String) (k : String) (h : l.contains k = true) :
    1 ≤ l.count k :=
  List.count_pos_iff.mpr ((str_contains_iff_mem l k).mp h)

lemma raceInv_step (k : String) (s s' : RaceState) (hinv : RaceInv k s)
    (hstep : raceStep k s s') : RaceInv k s' := by
  obtain ⟨hle, h1, h2⟩ := hinv
  cases hstep with
  | check1 h =>
      refine ⟨hle, ?_, h2⟩
      rintro (hc | hc | hc)
      · cases hb : s.jobs.contains k with
        | false => rw [hb] at hc; simp at hc
        | true => exact count_pos_of_contains_true _ _ hb
      · simp at hc
      · simp at hc
  | insert1 h habs =>
      have h0 : s.jobs.count k = 0 := count_of_contains_false _ _ habs
      have hc1 : (s.jobs ++ [k]).count k = 1 := by
        rw [List.count_append, h0]
        simp
      exact ⟨by simp [hc1], fun _ => by simp [hc1], fun _ => by simp [hc1]⟩
  | conflict1 h hpres =>
      have hc := count_pos_of_contains_true _ _ hpres
      exact ⟨hle, fun _ => hc, fun _ => hc⟩
  | skip1 h =>
      have hc : 1 ≤ s.jobs.count k := h1 (Or.inl h)
      exact ⟨hle, fun _ => hc, fun _ => hc⟩
  | check2 h =>
      refine ⟨hle, h1, ?_⟩
      rintro (hc | hc | hc)
      · cases hb : s.jobs.contains k with
        | false => rw [hb] at hc; simp at hc
        | true => exact count_pos_of_contains_true _ _ hb
      · simp at hc
      · simp at hc
  | insert2 h habs =>
      have h0 : s.jobs.count k = 0 := count_of_contains_false _ _ habs
      have hc1 : (s.jobs ++ [k]).count k = 1 := by
        rw [List.count_append, h0]
        simp
      exact ⟨by simp [hc1], fun _ => by simp [hc1], fun _ => by simp [hc1]⟩
  | conflict2 h hpres =>
      have hc := count_pos_of_contains_true _ _ hpres
      exact ⟨hle, fun _ => hc, fun _ => hc⟩
  | skip2 h =>
      have hc : 1 ≤ s.jobs.count k := h2 (Or.inl h)
      exact ⟨hle, fun _ => hc, fun _ => hc⟩

/-!  Claim theorems. -/

/-- C1 (amended): the `database.py` evaluator admits a (user, schedule-entry)
pair exactly when `0 <= now - class_end_instant <= 600` seconds (10 minutes);
a pair whose class ended more than 10 minutes before `now` is admitted by
neither variant, and a pair is admitted at the exact instant
`now = class_end_instant`; every chat id the evaluator collects comes from a
pair inside the window.  (The `bot.py` pass instead schedules the dispatch
whenever `now <= class_end_instant`, see the counterexample.) -/
theorem grace_window_eligibility (store : Store) (now : Int) (sch : Schedule) (u : User)
    (jobs : List Job)
    (hs : sch ∈ schedules_for_today store now)
    (hu : u ∈ Database.users_in_group store sch.group_type) :
    (Database.grace_eligible now sch = true ↔
        0 ≤ now - class_end_time now sch ∧ now - class_end_time now sch ≤ 600) ∧
    (600 < now - class_end_time now sch →
        Database.grace_eligible now sch = false ∧
          ∀ v : User, Bot.add_feedback_job now sch jobs v = jobs) ∧
    (now = class_end_time now sch → Database.grace_eligible now sch = true) ∧
    (Database.grace_eligible now sch = true →
        u.chat_id ∈ Database.users_to_notify store now) ∧
    (∀ c : Int, c ∈ Database.users_to_notify store now →
        ∃ s ∈ schedules_for_today store now, Database.grace_eligible now s = true ∧
          c ∈ (Database.users_in_group store s.group_type).map User.chat_id) := by
  have hiff : Database.grace_eligible now sch = true ↔
      0 ≤ now - class_end_time now sch ∧ now - class_end_time now sch ≤ 600 := by
    rw [sub_class_end]
    simp [Database.grace_eligible]
  refine ⟨hiff, ?_, ?_, ?_, ?_⟩
  · intro hlate
    constructor
    · rw [← Bool.not_eq_true]
      intro hg
      have := (hiff.mp hg).2
      omega
    · intro v
      unfold Bot.add_feedback_job
      rw [if_pos (by omega)]
  · intro heq
    exact hiff.mpr (by omega)
  · intro hg
    exact (mem_users_to_notify store now u.chat_id).mpr
      ⟨sch, hs, hg, List.mem_map_of_mem User.chat_id hu⟩
  · intro c hc
    exact (mem_users_to_notify store now c).mp hc

/-- C1 witness: on Monday at exactly 18:00 the Monday-18:00 entry is inside
the grace window and its active user 42 is collected. -/
theorem grace_window_eligibility_witness :
    Database.grace_eligible 64800 mondayEntry = true ∧
    (42 : Int) ∈ Database.users_to_notify exampleStore 64800 :=
  ⟨by decide,
   (grace_window_eligibility exampleStore 64800 mondayEntry activeUser []
      (by decide) (by decide)).2.2.2.1 (by decide)⟩

/-- C1 counterexample: at 17:00, one hour before the Monday-18:00 class end,
`now - class_end_instant = -3600` is outside `[0, grace_window]`, yet the
`bot.py` pass schedules the dispatch job for the pair — so the claimed
"eligible iff `0 <= now - class_end_instant <= grace_window`" fails on the
`bot.py` variant (its guard is `now <= class_end_instant`). -/
theorem bot_pass_outside_window_counterexample :
    ¬ (0 ≤ (61200 : Int) - class_end_time 61200 mondayEntry) ∧
    dupKey ∈ (Bot.check_and_schedule_feedback_requests exampleStore 61200 []).map Job.id := by
  decide

/-- C2: running the `bot.py` scheduling pass once and then any number of
further times on the same calendar date, with the pair (user `c`, date of
`now`) eligible and no job yet recorded for its dedup key, leaves exactly one
scheduled job carrying the key `job_name c (dateOf now)` — later passes find
the existing record and skip it. -/
theorem scheduling_pass_idempotent (store : Store) (jobs : List Job) (now : Int)
    (laterTimes : List Int) (c : Int)
    (hdates : ∀ t ∈ laterTimes, dateOf t = dateOf now)
    (h0 : countKey jobs (job_name c (dateOf now)) = 0)
    (helig : ∃ sch ∈ schedules_for_today store now, ¬ now > class_end_time now sch ∧
        ∃ u ∈ Bot.users_for store now sch, u.chat_id = c) :
    countKey
      (laterTimes.foldl (fun js t => Bot.check_and_schedule_feedback_requests store t js)
        (Bot.check_and_schedule_feedback_requests store now jobs))
      (job_name c (dateOf now)) = 1 := by
  have h1 : countKey (Bot.check_and_schedule_feedback_requests store now jobs)
      (job_name c (dateOf now)) = 1 := by
    apply countKey_schedules_foldl_adder store now _ jobs _ h0
    obtain ⟨sch, hschm, ht, u, hum, hc⟩ := helig
    exact ⟨sch, hschm, ht, u, hum, by rw [hc]⟩
  have hkeep : ∀ (ts : List Int) (s : List Job),
      countKey s (job_name c (dateOf now)) = 1 →
      countKey (ts.foldl (fun js t => Bot.check_and_schedule_feedback_requests store t js) s)
        (job_name c (dateOf now)) = 1 := by
    intro ts
    induction ts with
    | nil => exact fun s h => h
    | cons t ts ih =>
        intro s h
        simp only [List.foldl_cons]
        refine ih _ ?_
        rw [countKey_bot_pass_ne_zero store t s _ (by omega)]
        exact h
  exact hkeep laterTimes _ h1

/-- C2 witness: a pass at Monday 18:00 followed by a rerun at 18:05 schedules
exactly one job for user 42 on day 0. -/
theorem scheduling_pass_idempotent_witness :
    countKey
      ([(65100 : Int)].foldl
        (fun js t => Bot.check_and_schedule_feedback_requests exampleStore t js)
        (Bot.check_and_schedule_feedback_requests exampleStore 64800 []))
      (job_name 42 (dateOf 64800)) = 1 :=
  scheduling_pass_idempotent exampleStore [] 64800 [65100] 42 (by decide) (by decide)
    (by decide)

/-- C3 (amended): the `bot.py` pass selects only users whose start date is on
or before `now` — every selected user and every newly scheduled job belongs
to an active user with `start_date <= now`.  The `database.py` evaluator
filters only by group and active flag and can collect a user whose start
date is in the future (see the counterexample). -/
theorem start_date_filter_in_bot_pass (store : Store) (now : Int) (sch : Schedule) (u : User)
    (h : u ∈ Bot.users_for store now sch) :
    u.start_date ≤ now ∧
      ∀ jobs j, j ∈ Bot.check_and_schedule_feedback_requests store now jobs → j ∉ jobs →
        ∃ v ∈ store.users, v.chat_id = j.chat_id ∧ v.start_date ≤ now ∧
          v.is_active = true := by
  constructor
  · exact (users_for_spec store now sch u h).2.2.2
  · intro jobs j hj hnew
    rcases mem_bot_pass store now (schedules_for_today store now) jobs j hj with hold | hfound
    · exact absurd hold hnew
    · obtain ⟨sch', _, v, hv, hjv⟩ := hfound
      have hspec := users_for_spec store now sch' v hv
      exact ⟨v, hspec.1, by rw [hjv]; rfl, hspec.2.2.2, hspec.2.2.1⟩

/-- C3 witness: the active user of the example store, selected by the bot
pass on Monday 18:00, has its start date in the past. -/
theorem start_date_filter_in_bot_pass_witness :
    activeUser.start_date ≤ (64800 : Int) :=
  (start_date_filter_in_bot_pass exampleStore 64800 mondayEntry activeUser (by decide)).1

/-- C3 counterexample: in `futureStartStore` the only user starts far after
`now = 64800`, yet the `database.py` evaluator collects chat id 42 for the
in-window Monday entry — the claim that a user whose start date is after
`now` is never eligible fails on the `database.py` variant, which has no
start-date filter. -/
theorem db_pass_ignores_start_date_counterexample :
    (∀ u ∈ futureStartStore.users, (64800 : Int) < u.start_date) ∧
    (42 : Int) ∈ Database.users_to_notify futureStartStore 64800 := by
  decide

/-- C4: if every stored user with chat id `c` is inactive, then `c` is never
selected by the `bot.py` pass, never collected by the `database.py`
evaluator, and no pass ever schedules a new dispatch job for it — even when
group, weekday and time match a schedule entry. -/
theorem inactive_users_never_notified (store : Store) (now : Int) (c : Int)
    (h : ∀ u ∈ store.users, u.chat_id = c → u.is_active = false) :
    (∀ sch : Schedule, c ∉ (Bot.users_for store now sch).map User.chat_id) ∧
    (c ∉ Database.users_to_notify store now) ∧
    (∀ jobs j, j ∈ Bot.check_and_schedule_feedback_requests store now jobs →
        j.chat_id = c → j ∈ jobs) := by
  refine ⟨?_, ?_, ?_⟩
  · intro sch hmem
    rcases List.mem_map.mp hmem with ⟨u, hu, hc⟩
    have hspec := users_for_spec store now sch u hu
    have hfalse := h u hspec.1 hc
    rw [hspec.2.2.1] at hfalse
    cases hfalse
  · intro hmem
    rcases (mem_users_to_notify store now c).mp hmem with ⟨sch, _, _, hmm⟩
    rcases List.mem_map.mp hmm with ⟨u, hu, hc⟩
    have hspec := users_in_group_spec store sch.group_type u hu
    have hfalse := h u hspec.1 hc
    rw [hspec.2.2] at hfalse
    cases hfalse
  · intro jobs j hj hc
    by_contra hnew
    rcases mem_bot_pass store now (schedules_for_today store now) jobs j hj with hold | hfound
    · exact hnew hold
    · obtain ⟨sch, _, v, hv, hjv⟩ := hfound
      have hspec := users_for_spec store now sch v hv
      have hvc : v.chat_id = c := by rw [hjv] at hc; exact hc
      have hfalse := h v hspec.1 hvc
      rw [hspec.2.2.1] at hfalse
      cases hfalse

/-- C4 witness: in `inactiveStore` the sole user 7 is inactive although its
group and the Monday 18:00 entry match at `now = 64800`; it is not collected
by the evaluator. -/
theorem inactive_users_never_notified_witness :
    (7 : Int) ∉ Database.users_to_notify inactiveStore 64800 :=
  (inactive_users_never_notified inactiveStore 64800 7 (by decide)).2.1

/-- C5: on an empty schedule store, `init_schedule` seeds exactly the six
default rows — `weekday` ending 18:00 (64800 s) for weekday indices 0-4 and
`weekend` ending 14:00 (50400 s) for index 5 — and on a non-empty store it
changes nothing and issues only the count query. -/
theorem init_schedule_seeds_defaults :
    (∀ us : List User,
        (Database.init_schedule ⟨[], us⟩).2.1.schedules =
          [⟨"weekday", 0, 64800⟩, ⟨"weekday", 1, 64800⟩, ⟨"weekday", 2, 64800⟩,
           ⟨"weekday", 3, 64800⟩, ⟨"weekday", 4, 64800⟩, ⟨"weekend", 5, 50400⟩]) ∧
    (∀ store : Store, store.schedules ≠ [] →
        Database.init_schedule store = (true, store, [StoreOp.countSchedules])) := by
  constructor
  · intro us
    rfl
  · intro store hne
    unfold Database.init_schedule
    rw [if_neg (fun hl => hne (List.length_eq_zero.mp hl))]

/-- C5 witness: seeding an empty store yields the six default rows, and a
store already holding a row is returned unchanged. -/
theorem init_schedule_seeds_defaults_witness :
    (Database.init_schedule ⟨[], []⟩).2.1.schedules =
      [⟨"weekday", 0, 64800⟩, ⟨"weekday", 1, 64800⟩, ⟨"weekday", 2, 64800⟩,
       ⟨"weekday", 3, 64800⟩, ⟨"weekday", 4, 64800⟩, ⟨"weekend", 5, 50400⟩] ∧
    Database.init_schedule ⟨[mondayEntry], []⟩ =
      (true, ⟨[mondayEntry], []⟩, [StoreOp.countSchedules]) :=
  ⟨init_schedule_seeds_defaults.1 [],
   init_schedule_seeds_defaults.2 ⟨[mondayEntry], []⟩ (by decide)⟩

/-- C6 (amended): every store operation the `database.py` evaluator issues is
a read — it writes nothing — and on a reachable store it returns the success
boolean `True` while the ordered list of eligible chat ids it accumulates is
only the internal `users_to_notify` variable, not the return value. -/
theorem evaluator_read_only (a : Database.StoreAccess) (now : Int) :
    (∀ op ∈ (Database.check_and_schedule_feedback_requests a now).ops, op.isRead = true) ∧
    (∀ store : Store, a = .available store →
        (Database.check_and_schedule_feedback_requests a now).ok = true ∧
        (Database.check_and_schedule_feedback_requests a now).notified =
          Database.users_to_notify store now) := by
  constructor
  · exact fun op hop => db_pass_ops_isRead a now op hop
  · rintro store rfl
    exact ⟨rfl, rfl⟩

/-- C6 witness: on the reachable example store the pass returns `True` and
its internal list equals the evaluator's eligible chat ids. -/
theorem evaluator_read_only_witness :
    (Database.check_and_schedule_feedback_requests (.available exampleStore) 64800).ok = true ∧
    (Database.check_and_schedule_feedback_requests (.available exampleStore) 64800).notified =
      Database.users_to_notify exampleStore 64800 :=
  (evaluator_read_only (.available exampleStore) 64800).2 exampleStore rfl

/-- C6 counterexample: two invocations with different eligible sets (one
eligible user versus none) produce the same return value `True`, so the
value returned to the caller is a bare success boolean and not the claimed
ordered sequence of (user, chat, date, class-end) tuples. -/
theorem evaluator_returns_boolean_counterexample :
    (Database.check_and_schedule_feedback_requests (.available exampleStore) 64800).ok =
      (Database.check_and_schedule_feedback_requests (.available emptyStore) 64800).ok ∧
    (Database.check_and_schedule_feedback_requests (.available exampleStore) 64800).notified ≠
      (Database.check_and_schedule_feedback_requests (.available emptyStore) 64800).notified := by
  decide

/-- C7 (amended): when the session cannot be opened the pass returns `False`
to the trigger caller with no store operations at all — hence no partial
writes, nobody notified, and a retry starts from an unchanged store; in
every access mode the pass never writes, so retrying is always safe; when a
store query fails mid-pass, however, the error is swallowed by
`safe_execute_query` and the pass reports success with nobody collected. -/
theorem store_unavailable_no_partial_writes (a : Database.StoreAccess) (now : Int) :
    (a = .unreachable →
        (Database.check_and_schedule_feedback_requests a now).ok = false ∧
        (Database.check_and_schedule_feedback_requests a now).ops = [] ∧
        (Database.check_and_schedule_feedback_requests a now).notified = []) ∧
    (∀ store : Store,
        applyOps store (Database.check_and_schedule_feedback_requests a now).ops = store) ∧
    (a = .failingSchedules →
        (Database.check_and_schedule_feedback_requests a now).ok = true ∧
        (Database.check_and_schedule_feedback_requests a now).notified = []) ∧
    (∀ store : Store, a = .failingUsers store →
        (Database.check_and_schedule_feedback_requests a now).ok = true ∧
        (Database.check_and_schedule_feedback_requests a now).notified = []) := by
  refine ⟨?_, ?_, ?_, ?_⟩
  · rintro rfl
    exact ⟨rfl, rfl, rfl⟩
  · intro store
    exact applyOps_of_reads store _ (fun op hop => db_pass_ops_isRead a now op hop)
  · rintro rfl
    exact ⟨rfl, rfl⟩
  · rintro store rfl
    exact ⟨rfl, rfl⟩

/-- C7 witness: with the session unreachable the pass reports failure,
issues no store operation and collects nobody. -/
theorem store_unavailable_no_partial_writes_witness :
    (Database.check_and_schedule_feedback_requests .unreachable 0).ok = false ∧
    (Database.check_and_schedule_feedback_requests .unreachable 0).ops = [] ∧
    (Database.check_and_schedule_feedback_requests .unreachable 0).notified = [] :=
  (store_unavailable_no_partial_writes .unreachable 0).1 rfl

/-- C7 counterexample: when the schedule query itself fails mid-pass
(`safe_execute_query` returns `None`), the pass returns `True` — success —
to the trigger caller instead of the claimed `StoreUnavailable` failure. -/
theorem failing_query_reports_success_counterexample :
    (Database.check_and_schedule_feedback_requests .failingSchedules 0).ok = true := by
  rfl

/-- C8: whatever the transport does, `send_feedback_request_to_user` raises
nothing to its caller and makes exactly one send attempt (no retry); on a
transport failure the error is logged (and the handler variant returns
`False`); and a scheduling pass run while the dispatch job for a key is
still recorded adds nothing for that key, so the pair is not re-sent. -/
theorem notifier_failure_contained (t : TransportOutcome) :
    (Bot.send_feedback_request_to_user t).raised = false ∧
    (Bot.send_feedback_request_to_user t).attempts = 1 ∧
    (t = .failed →
        (Bot.send_feedback_request_to_user t).errorLogged = true ∧
        (Handlers.send_feedback_request t).1 = false) ∧
    (∀ (store : Store) (now : Int) (jobs : List Job) (k : String), k ∈ jobs.map Job.id →
        countKey (Bot.check_and_schedule_feedback_requests store now jobs) k =
          countKey jobs k) := by
  refine ⟨?_, ?_, ?_, ?_⟩
  · cases t <;> rfl
  · cases t <;> rfl
  · rintro rfl
    exact ⟨rfl, rfl⟩
  · intro store now jobs k hk
    exact countKey_bot_pass_ne_zero store now jobs k
      (fun h0 => (countKey_eq_zero jobs k).mp h0 hk)

/-- C8 witness: a failed transport is logged and not raised, the handler
variant returns `False`, and a pass at Monday 18:00 over a scheduler already
holding the job for user 42 on day 0 leaves its count unchanged. -/
theorem notifier_failure_contained_witness :
    (Bot.send_feedback_request_to_user .failed).errorLogged = true ∧
    (Handlers.send_feedback_request .failed).1 = false ∧
    countKey
      (Bot.check_and_schedule_feedback_requests exampleStore 64800 [⟨dupKey, 64800, 42⟩])
      dupKey = countKey [⟨dupKey, 64800, 42⟩] dupKey :=
  ⟨((notifier_failure_contained .failed).2.2.1 rfl).1,
   ((notifier_failure_contained .failed).2.2.1 rfl).2,
   (notifier_failure_contained .failed).2.2.2 exampleStore 64800 [⟨dupKey, 64800, 42⟩] dupKey
     (by decide)⟩

/-- C9: under the dedup semantics of the actual call — the pass's own
membership check (line 519) is a separate action, but `scheduler.add_job`
atomically either inserts the id or raises `ConflictingIdError` under
APScheduler's jobstore lock — any interleaving of two concurrent passes over
the same eligible (user, calendar-date) dedup key, starting with no record
for the key, keeps at most one job with that key in the shared store, and
once both passes have finished (normally or aborted by the conflict error)
exactly one dispatch record exists: no interleaving admits a duplicate
insert. -/
theorem concurrent_passes_single_record (k : String) (jobs0 : List String) (s : RaceState)
    (h0 : jobs0.count k = 0)
    (h : Relation.ReflTransGen (raceStep k) ⟨jobs0, .start, .start⟩ s) :
    s.jobs.count k ≤ 1 ∧
      ((s.t1 = .done ∨ s.t1 = .crashed) → (s.t2 = .done ∨ s.t2 = .crashed) →
        s.jobs.count k = 1) := by
  have hinv : RaceInv k s := by
    induction h with
    | refl =>
        refine ⟨show jobs0.count k ≤ 1 by omega, ?_, ?_⟩ <;>
          rintro (hc | hc | hc) <;> simp at hc
    | tail hsteps hstep ih => exact raceInv_step k _ _ ih hstep
  exact ⟨hinv.1, fun ha _ => Nat.le_antisymm hinv.1 (hinv.2.1 (Or.inr ha))⟩

/-- C9 witness: the racing interleaving — both membership checks before
either insert — run from an empty store for the key of user 42 on day 0:
pass 1 inserts, pass 2's `add_job` hits the conflict and aborts, and the
store holds the key exactly once. -/
theorem concurrent_passes_single_record_witness :
    ([dupKey] : List String).count dupKey ≤ 1 ∧
      ([dupKey] : List String).count dupKey = 1 := by
  have h1 : raceStep dupKey ⟨[], .start, .start⟩ ⟨[], .checked true, .start⟩ :=
    raceStep.check1 ⟨[], .start, .start⟩ rfl
  have h2 : raceStep dupKey ⟨[], .checked true, .start⟩
      ⟨[], .checked true, .checked true⟩ :=
    raceStep.check2 ⟨[], .checked true, .start⟩ rfl
  have h3 : raceStep dupKey ⟨[], .checked true, .checked true⟩
      ⟨[dupKey], .done, .checked true⟩ :=
    raceStep.insert1 ⟨[], .checked true, .checked true⟩ rfl rfl
  have h4 : raceStep dupKey ⟨[dupKey], .done, .checked true⟩
      ⟨[dupKey], .done, .crashed⟩ :=
    raceStep.conflict2 ⟨[dupKey], .done, .checked true⟩ rfl (by decide)
  have htrace : Relation.ReflTransGen (raceStep dupKey) ⟨[], .start, .start⟩
      ⟨[dupKey], .done, .crashed⟩ :=
    Relation.ReflTransGen.head h1
      (Relation.ReflTransGen.head h2
        (Relation.ReflTransGen.head h3 (Relation.ReflTransGen.single h4)))
  have hmain := concurrent_passes_single_record dupKey [] ⟨[dupKey], .done, .crashed⟩ rfl
    htrace
  exact ⟨hmain.1, hmain.2 (Or.inl rfl) (Or.inr rfl)⟩

/-- C10 (amended): `helpers.py`'s `parse_date` is total — for every input
string it returns `Ok` (`None` or a datetime) and never lets an exception
escape; `utils.py`'s `parse_date` either returns `Ok` or raises exactly
`OverflowError` (when a parsed field falls outside the C-int range of the
`datetime` constructor, a kind its `except (ValueError, IndexError)` clause
does not catch); in both, a returned datetime is always a valid Gregorian
calendar date, and a non-existent day/month combination such as
`31.02.2020` yields `None` rather than an error. -/
theorem parse_date_safety (s : String) :
    ((∃ r, Utils.parse_date s = .ok r) ∨
        Utils.parse_date s = .error .overflowError) ∧
    (∀ dt : PyDateTime, Utils.parse_date s = .ok (some dt) →
        validDate dt.year dt.month dt.day = true) ∧
    (∃ r, Helpers.parse_date s = .ok r) ∧
    (∀ dt : PyDateTime, Helpers.parse_date s = .ok (some dt) →
        validDate dt.year dt.month dt.day = true) ∧
    Utils.parse_date "31.02.2020" = .ok none ∧
    Helpers.parse_date "31.02.2020" = .ok none :=
  ⟨utils_parse_date_ok_or_overflow s,
   fun dt h => utils_parse_date_valid s dt h,
   helpers_parse_date_ok s,
   fun dt h => helpers_parse_date_valid s dt h,
   by rfl,
   by rfl⟩

/-- C10 witness: the leap-day string parses to a valid date in both
implementations, and the validity follows by applying the theorem. -/
theorem parse_date_safety_witness :
    Utils.parse_date "29.02.2024" = .ok (some ⟨2024, 2, 29⟩) ∧
    validDate 2024 2 29 = true ∧
    Helpers.parse_date "2024-02-29" = .ok (some ⟨2024, 2, 29⟩) :=
  ⟨by rfl,
   (parse_date_safety "29.02.2024").2.1 ⟨2024, 2, 29⟩ (by rfl),
   by rfl⟩

/-- C10 counterexample: `utils.py`'s `parse_date` on `"01.01.2147483648"`
reaches `datetime(2147483648, 1, 1)`, whose year does not fit a C int:
CPython raises `OverflowError`, which the `except (ValueError, IndexError)`
clause does not catch — the function raises, refuting the claim that it
never raises an exception. -/
theorem utils_parse_date_overflow_counterexample :
    Utils.parse_date "01.01.2147483648" = .error .overflowError := by
  rfl
